import Mathlib

/-!
Shallow embedding of conduwuit's federation transaction dispatcher
(src/api/server/send.rs) and room state accessor
(src/service/rooms/state_accessor/mod.rs).

External collaborators (short-id service, state compressor, timeline,
state cache, presence/typing/receipt stores, the server lifecycle and
config) are modelled as fields of environment records; calls that mutate
collaborator state are recorded in an effect trace.  Rust `Result` is
`Except Error`; a Rust panic (`expect`) is the distinguished
`Outcome.panic` constructor so that panicking and returning an error are
observably different.
-/

namespace Conduwuit

/-- A user id: localpart plus the server it belongs to
(`UserId::server_name`). -/
structure UserId where
  localpart : String
  server : String
deriving DecidableEq, Repr

abbrev ServerName := String
abbrev RoomId := String
abbrev EventId := String
abbrev Json := String
abbrev DeviceId := String

abbrev ShortEventId := Nat
abbrev ShortStateKey := Nat
abbrev ShortStateHash := Nat

/-- Error taxonomy used by the embedded code.  Distinct constructors model
the distinct `ErrorKind`s of the source (`Forbidden`, `NotFound`,
`Database`, `bad_database`, the shutdown error from `check_running`). -/
inductive Error where
  | forbidden : String → Error
  | notFound : String → Error
  | invalidParam : String → Error
  | database : String → Error
  | badDatabase : String → Error
  | cancelled : String → Error
  | parse : String → Error
deriving DecidableEq, Repr

/-- Result of a Rust call that can also panic (`expect` / `unwrap`). -/
inductive Outcome (α : Type) where
  | ok : α → Outcome α
  | err : Error → Outcome α
  | panic : String → Outcome α
deriving DecidableEq, Repr

def Outcome.isPanic {α : Type} : Outcome α → Bool
  | .panic _ => true
  | _ => false

/-- Observable calls into mutating or expensive collaborators.  `log` is a
diagnostic only; everything except `log` and `loadState` is a state
mutation of some collaborator. -/
inductive Eff where
  | parsePdu : Json → Eff
  | lockRoom : RoomId → Eff
  | handlePdu : ServerName → RoomId → EventId → Eff
  | loadState : ShortStateHash → Eff
  | setPresence : UserId → Eff
  | readReceiptUpdate : UserId → RoomId → EventId → Eff
  | typingAdd : UserId → RoomId → Nat → Eff
  | typingRemove : UserId → RoomId → Eff
  | markDeviceKeyUpdate : UserId → Eff
  | addToDeviceEvent : UserId → UserId → DeviceId → Eff
  | addTxnId : UserId → String → Eff
  | addCrossSigningKeys : UserId → Eff
  | log : String → Eff
deriving DecidableEq, Repr

/-- Whether an effect mutates collaborator state (reads and diagnostics do
not). -/
def Eff.isMutation : Eff → Bool
  | .log _ => false
  | .loadState _ => false
  | .parsePdu _ => false
  | .lockRoom _ => false
  | _ => true

abbrev Trace := List Eff

/-- Mutating effects of a trace. -/
def mutations (t : Trace) : Trace := t.filter Eff.isMutation

end Conduwuit

namespace Conduwuit

/-! ### src/api/server/send.rs : data model -/

/-- One entry of `PresenceContent.push`. -/
structure PresenceUpdate where
  user_id : UserId
  presence : String
  currently_active : Bool
  last_active_ago : Nat
  status_msg : Option String
deriving DecidableEq, Repr

structure PresenceContent where
  push : List PresenceUpdate
deriving DecidableEq, Repr

structure ReceiptUserUpdates where
  data : Json
  event_ids : List EventId
deriving DecidableEq, Repr

structure ReceiptRoomUpdates where
  read : List (UserId × ReceiptUserUpdates)
deriving DecidableEq, Repr

structure ReceiptContent where
  receipts : List (RoomId × ReceiptRoomUpdates)
deriving DecidableEq, Repr

structure TypingContent where
  room_id : RoomId
  user_id : UserId
  typing : Bool
deriving DecidableEq, Repr

structure DeviceListUpdateContent where
  user_id : UserId
deriving DecidableEq, Repr

inductive DeviceIdOrAllDevices where
  | deviceId : DeviceId → DeviceIdOrAllDevices
  | allDevices
deriving DecidableEq, Repr

structure DirectDeviceContent where
  sender : UserId
  ev_type : String
  message_id : String
  messages : List (UserId × List (DeviceIdOrAllDevices × Json))
deriving DecidableEq, Repr

structure SigningKeyUpdateContent where
  user_id : UserId
  master_key : Option Json
  self_signing_key : Option Json
deriving DecidableEq, Repr

/-- The closed sum of EDU variants (ruma `Edu`); `custom` is logged and
ignored by the dispatcher. -/
inductive Edu where
  | presence : PresenceContent → Edu
  | receipt : ReceiptContent → Edu
  | typing : TypingContent → Edu
  | deviceListUpdate : DeviceListUpdateContent → Edu
  | directToDevice : DirectDeviceContent → Edu
  | signingKeyUpdate : SigningKeyUpdateContent → Edu
  | custom : Json → Edu
deriving DecidableEq, Repr

/-- A parsed PDU as produced by `parse_incoming_pdu`:
`(room id, event id, canonical JSON)`. -/
abbrev Pdu := RoomId × EventId × Json

/-- Collaborators and config knobs used by the transaction dispatcher.
`PDU_LIMIT` / `EDU_LIMIT` live in `service::sending` (outside src/), so
their values are environment parameters here.  `running i` models
`server.check_running()` polled before the i-th PDU of a room's
sequential loop. -/
structure SendEnv where
  PDU_LIMIT : Nat
  EDU_LIMIT : Nat
  parse_incoming_pdu : Json → Except Error Pdu
  parse_edu : Json → Option Edu
  running : Nat → Bool
  handle_incoming_pdu : ServerName → RoomId → EventId → Json → Except Error Unit
  allow_incoming_presence : Bool
  allow_incoming_read_receipts : Bool
  allow_incoming_typing : Bool
  acl_check : ServerName → RoomId → Except Error Unit
  is_joined : UserId → RoomId → Bool
  room_members : RoomId → List UserId
  existing_txnid : UserId → String → Bool
  deser_to_device : Json → Except Error Json
  all_device_ids : UserId → List DeviceId
  now_ms : Nat
  typing_federation_timeout_s : Nat

/-! ### src/api/server/send.rs : EDU handlers -/

/-- `handle_edu_presence`: gate on the presence policy knob, then for each
pushed update drop (log only) entries whose user does not belong to the
authenticated origin, otherwise call `set_presence`. -/
def handle_edu_presence (env : SendEnv) (origin : ServerName)
    (presence : PresenceContent) : Trace :=
  if !env.allow_incoming_presence then [] else
  presence.push.flatMap fun update =>
    if update.user_id.server ≠ origin then
      [.log "received presence EDU for user not belonging to origin"]
    else
      [.setPresence update.user_id]

/-- `handle_edu_receipt`: gate on the read-receipt knob; per room skip
ACL-denied origins; per user skip foreign users and origins with no
member in the room; otherwise one `readreceipt_update` per event id. -/
def handle_edu_receipt (env : SendEnv) (origin : ServerName)
    (receipt : ReceiptContent) : Trace :=
  if !env.allow_incoming_read_receipts then [] else
  receipt.receipts.flatMap fun ru =>
    match env.acl_check origin ru.1 with
    | .error _ => [.log "received read receipt EDU from ACLd server"]
    | .ok _ =>
      ru.2.read.flatMap fun uu =>
        if uu.1.server ≠ origin then
          [.log "received read receipt EDU for user not belonging to origin"]
        else if (env.room_members ru.1).any (fun m => m.server == uu.1.server) then
          uu.2.event_ids.map fun event_id => .readReceiptUpdate uu.1 ru.1 event_id
        else
          [.log "received read receipt EDU from server who does not have a member in the room"]

/-- `handle_edu_typing`: gate on the typing knob; origin-ownership check;
ACL check; joined check; then start (with absolute expiry now + timeout)
or stop the typing indicator. -/
def handle_edu_typing (env : SendEnv) (origin : ServerName)
    (typing : TypingContent) : Trace :=
  if !env.allow_incoming_typing then [] else
  if typing.user_id.server ≠ origin then
    [.log "received typing EDU for user not belonging to origin"]
  else
    match env.acl_check typing.user_id.server typing.room_id with
    | .error _ => [.log "received typing EDU for ACLd users server"]
    | .ok _ =>
      if env.is_joined typing.user_id typing.room_id then
        if typing.typing then
          [.typingAdd typing.user_id typing.room_id
            (env.now_ms + env.typing_federation_timeout_s * 1000)]
        else
          [.typingRemove typing.user_id typing.room_id]
      else
        [.log "received typing EDU for user not in room"]

/-- `handle_edu_device_list_update`: origin-ownership check, then mark the
user's device keys as needing refresh. -/
def handle_edu_device_list_update (env : SendEnv) (origin : ServerName)
    (content : DeviceListUpdateContent) : Trace :=
  if content.user_id.server ≠ origin then
    [.log "received device list update EDU for user not belonging to origin"]
  else
    [.markDeviceKeyUpdate content.user_id]

/-- `handle_edu_direct_to_device`: origin-ownership check on the sender;
transaction-id dedup; per nested event skip deserialization failures;
deliver to one device or to all current devices; record the txn id. -/
def handle_edu_direct_to_device (env : SendEnv) (origin : ServerName)
    (content : DirectDeviceContent) : Trace :=
  if content.sender.server ≠ origin then
    [.log "received direct to device EDU for user not belonging to origin"]
  else if env.existing_txnid content.sender content.message_id then []
  else
    (content.messages.flatMap fun tm =>
      tm.2.flatMap fun de =>
        match env.deser_to_device de.2 with
        | .error _ => []
        | .ok _ =>
          match de.1 with
          | .deviceId d => [.addToDeviceEvent content.sender tm.1 d]
          | .allDevices =>
            (env.all_device_ids tm.1).map fun d => .addToDeviceEvent content.sender tm.1 d)
    ++ [.addTxnId content.sender content.message_id]

/-- `handle_edu_signing_key_update`: origin-ownership check, then update
cross-signing keys only when a master key is present. -/
def handle_edu_signing_key_update (env : SendEnv) (origin : ServerName)
    (content : SigningKeyUpdateContent) : Trace :=
  if content.user_id.server ≠ origin then
    [.log "received signing key update EDU from server that does not belong to users server"]
  else
    match content.master_key with
    | some _ => [.addCrossSigningKeys content.user_id]
    | none => []

/-- `handle_edu`: dispatch over the EDU variant; unknown variants are
logged only.  EDU processing never returns an error to the peer. -/
def handle_edu (env : SendEnv) (origin : ServerName) : Edu → Trace
  | .presence p => handle_edu_presence env origin p
  | .receipt r => handle_edu_receipt env origin r
  | .typing t => handle_edu_typing env origin t
  | .deviceListUpdate c => handle_edu_device_list_update env origin c
  | .directToDevice c => handle_edu_direct_to_device env origin c
  | .signingKeyUpdate c => handle_edu_signing_key_update env origin c
  | .custom _ => [.log "received custom unknown EDU"]

end Conduwuit

namespace Conduwuit

/-! ### src/api/server/send.rs : per-room PDU application and dispatch -/

/-- The body of `handle_room`'s sequential loop, with `i` counting the
PDUs already attempted in this room: poll `check_running` before each
PDU (shutdown yields the fatal non-retryable error and stops the loop),
otherwise delegate to `handle_incoming_pdu` and record the per-PDU
result; an individual PDU failure is recorded, not propagated. -/
def handle_room_loop (env : SendEnv) (origin : ServerName) (room_id : RoomId) :
    Nat → List Pdu → Outcome (List (EventId × Except Error Unit)) × Trace
  | _, [] => (.ok [], [])
  | i, p :: rest =>
    if env.running i then
      let r := env.handle_incoming_pdu origin room_id p.2.1 p.2.2
      match handle_room_loop env origin room_id (i + 1) rest with
      | (.ok results, t) => (.ok ((p.2.1, r) :: results), .handlePdu origin room_id p.2.1 :: t)
      | (.err e, t) => (.err e, .handlePdu origin room_id p.2.1 :: t)
      | (.panic s, t) => (.panic s, .handlePdu origin room_id p.2.1 :: t)
    else
      (.err (.cancelled "server is shutting down"), [])

/-- `handle_room`: take the per-room federation mutex, then apply the
room's PDUs sequentially in submission order. -/
def handle_room (env : SendEnv) (origin : ServerName) (room_id : RoomId)
    (pdus : List Pdu) : Outcome (List (EventId × Except Error Unit)) × Trace :=
  let rt := handle_room_loop env origin room_id 0 pdus
  (rt.1, .lockRoom room_id :: rt.2)

/-- Stable sort by room id followed by order-preserving grouping: each
room that occurs in the list maps to the sublist of its PDUs in original
submission order.  (The source's room iteration order only schedules the
concurrent per-room tasks; it does not affect the collected result map,
so first-occurrence order of rooms is used here.) -/
def groupByRoom (pdus : List Pdu) : List (RoomId × List Pdu) :=
  (pdus.map fun p => p.1).dedup.map fun r => (r, pdus.filter fun p => p.1 = r)

/-- Evaluate the per-room results (`broad_and_then` + `try_collect` in the
source: the first room-level error aborts the collection, and only
shutdown produces a room-level error). -/
def runRooms (env : SendEnv) (origin : ServerName) :
    List (RoomId × List Pdu) → Outcome (List (EventId × Except Error Unit)) × Trace
  | [] => (.ok [], [])
  | g :: rest =>
    match handle_room env origin g.1 g.2 with
    | (.ok res, t) =>
      match runRooms env origin rest with
      | (.ok res2, t2) => (.ok (res ++ res2), t ++ t2)
      | (.err e, t2) => (.err e, t ++ t2)
      | (.panic s, t2) => (.panic s, t ++ t2)
    | (.err e, t) => (.err e, t)
    | (.panic s, t) => (.panic s, t)

/-- Insert into an association map keyed by event id, overwriting any
existing entry with the same key (`BTreeMap` collect semantics). -/
def mapInsert {α : Type} (m : List (EventId × α)) (k : EventId) (v : α) :
    List (EventId × α) :=
  if m.any fun kv => kv.1 = k then
    m.map fun kv => if kv.1 = k then (k, v) else kv
  else
    m ++ [(k, v)]

/-- Collect a list of `(event id, result)` entries into a map with unique
keys, later entries overwriting earlier ones. -/
def collectMap {α : Type} (entries : List (EventId × α)) : List (EventId × α) :=
  entries.foldl (fun m kv => mapInsert m kv.1 kv.2) []

/-- `handle`: group PDUs by room, evaluate rooms (concurrently in the
source; the collected map is order-independent), then — only if no room
aborted — process the EDUs, whose failures never surface. -/
def handle (env : SendEnv) (origin : ServerName) (pdus : List Pdu)
    (edus : List Edu) : Outcome (List (EventId × Except Error Unit)) × Trace :=
  match runRooms env origin (groupByRoom pdus) with
  | (.ok entries, t) => (.ok (collectMap entries), t ++ edus.flatMap (handle_edu env origin))
  | (.err e, t) => (.err e, t)
  | (.panic s, t) => (.panic s, t)

/-- Modelled from the spec: `error::sanitized_message` (not under src/)
maps an internal error to a generic, namespaced, peer-safe message class;
internal detail never crosses the boundary. -/
def sanitized_message : Error → String
  | .forbidden _ => "M_FORBIDDEN"
  | .notFound _ => "M_NOT_FOUND"
  | .invalidParam _ => "M_INVALID_PARAM"
  | .database _ => "M_UNKNOWN"
  | .badDatabase _ => "M_UNKNOWN"
  | .cancelled _ => "M_UNKNOWN"
  | .parse _ => "M_BAD_JSON"

/-- An incoming transaction: `authOrigin` is the transport-authenticated
origin (`body.origin()`), `origin` the origin declared in the signed
envelope (`body.body.origin`); raw JSON PDU and EDU lists. -/
structure TxnRequest where
  authOrigin : ServerName
  origin : ServerName
  pdus : List Json
  edus : List Json
deriving DecidableEq, Repr

/-- `send_transaction_message_route`: origin and size guards first (each
rejecting the whole transaction with Forbidden before anything runs);
then parse PDUs (parse failures are dropped), parse EDUs (failures are
dropped), delegate to `handle`, and sanitize per-PDU error messages in
the response map. -/
def send_transaction_message_route (env : SendEnv) (body : TxnRequest) :
    Outcome (List (EventId × Except String Unit)) × Trace :=
  if body.authOrigin ≠ body.origin then
    (.err (.forbidden "Not allowed to send transactions on behalf of other servers"), [])
  else if env.PDU_LIMIT < body.pdus.length then
    (.err (.forbidden "Not allowed to send more than PDU_LIMIT PDUs in one transaction"), [])
  else if env.EDU_LIMIT < body.edus.length then
    (.err (.forbidden "Not allowed to send more than EDU_LIMIT EDUs in one transaction"), [])
  else
    let parseTrace : Trace := body.pdus.map Eff.parsePdu
    let pdus := body.pdus.filterMap fun raw => (env.parse_incoming_pdu raw).toOption
    let edus := body.edus.filterMap env.parse_edu
    match handle env body.authOrigin pdus edus with
    | (.ok results, t) =>
      (.ok (results.map fun er => (er.1, er.2.mapError sanitized_message)), parseTrace ++ t)
    | (.err e, t) => (.err e, parseTrace ++ t)
    | (.panic s, t) => (.panic s, parseTrace ++ t)

end Conduwuit

namespace Conduwuit

/-! ### src/service/rooms/state_accessor/mod.rs : data model -/

inductive StateEventType where
  | roomMember
  | roomHistoryVisibility
  | roomPowerLevels
  | roomCreate
  | other : String → StateEventType
deriving DecidableEq, Repr

inductive TimelineEventType where
  | roomCreate
  | roomServerAcl
  | roomMember
  | other : String → TimelineEventType
deriving DecidableEq, Repr

inductive MembershipState where
  | ban
  | invite
  | join
  | knock
  | leave
  | custom : String → MembershipState
deriving DecidableEq, Repr

inductive HistoryVisibility where
  | invited
  | joined
  | shared
  | worldReadable
  | custom : String → HistoryVisibility
deriving DecidableEq, Repr

structure RoomMemberEventContent where
  membership : MembershipState
deriving DecidableEq, Repr

structure RoomHistoryVisibilityEventContent where
  history_visibility : HistoryVisibility
deriving DecidableEq, Repr

/-- Power-levels content.  The two ruma predicates
`user_can_redact_event_of_other` and `user_can_redact_own_event` are
external collaborator logic (not under src/), carried here as abstract
predicates of the deserialized content. -/
structure RoomPowerLevelsEventContent where
  canRedactOther : UserId → Bool
  canRedactOwn : UserId → Bool

structure PduEvent where
  kind : TimelineEventType
  sender : UserId
  state_key : Option String
  content : Json
deriving DecidableEq, Repr

/-- Full user id string (`UserId::as_str`), the state key of the user's
member event. -/
def UserId.fullId (u : UserId) : String := "@" ++ u.localpart ++ ":" ++ u.server

/-- One compressed state entry: the source packs
`BE(short-state-key) ++ BE(short-event-id)` into a fixed-width byte blob;
since fixed-width big-endian encoding is injective, a byte-prefix test
against `BE(key)` is equivalent to equality on the first component, so
the entry is modelled as the pair itself. -/
structure CompressedStateEvent where
  sKey : ShortStateKey
  sEventId : ShortEventId
deriving DecidableEq, Repr

def parse_compressed_state_event (c : CompressedStateEvent) :
    ShortStateKey × ShortEventId :=
  (c.sKey, c.sEventId)

/-- One layer returned by `load_shortstatehash_info`. -/
structure ShortStateInfo where
  full_state : List CompressedStateEvent
deriving DecidableEq, Repr

/-- Collaborators of the state accessor service. -/
structure StateEnv where
  get_shorteventid : EventId → Except Error ShortEventId
  shorteventid_shortstatehash : ShortEventId → Except Error ShortStateHash
  load_shortstatehash_info : ShortStateHash → Except Error (List ShortStateInfo)
  get_shortstatekey : StateEventType → String → Except Error ShortStateKey
  get_eventid_from_short : ShortEventId → Except Error EventId
  get_pdu : EventId → Except Error PduEvent
  get_room_shortstatehash : RoomId → Except Error ShortStateHash
  is_joined : UserId → RoomId → Bool
  room_members : RoomId → List UserId
  deserMember : Json → Except Error RoomMemberEventContent
  deserHistVis : Json → Except Error RoomHistoryVisibilityEventContent
  deserPL : Json → Except Error RoomPowerLevelsEventContent

/-! ### State resolution core -/

/-- `state_full_shortids`: load the layered compressed state, take the
last layer via `Vec::pop` — the source unwraps this with
`expect("there is always one layer")`, i.e. it panics on an empty layer
list — and decode every entry. -/
def state_full_shortids (env : StateEnv) (shortstatehash : ShortStateHash) :
    Outcome (List (ShortStateKey × ShortEventId)) × Trace :=
  match env.load_shortstatehash_info shortstatehash with
  | .error _ => (.err (.database "Missing state IDs"), [.loadState shortstatehash])
  | .ok layers =>
    match layers.getLast? with
    | none => (.panic "there is always one layer", [.loadState shortstatehash])
    | some layer =>
      (.ok (layer.full_state.map parse_compressed_state_event), [.loadState shortstatehash])

/-- `state_get_id`: resolve the short state key and the compressed state
(`try_join`: the state load runs in both cases, its failure surfaced as
a Database error), `pop` the last layer (panic on empty, as in the
source), scan for the entry whose byte prefix matches the key, and
resolve the short event id back to a full event id. -/
def state_get_id (env : StateEnv) (shortstatehash : ShortStateHash)
    (event_type : StateEventType) (state_key : String) :
    Outcome EventId × Trace :=
  match env.get_shortstatekey event_type state_key with
  | .error e => (.err e, [.loadState shortstatehash])
  | .ok shortstatekey =>
    match env.load_shortstatehash_info shortstatehash with
    | .error _ => (.err (.database "Missing state"), [.loadState shortstatehash])
    | .ok layers =>
      match layers.getLast? with
      | none => (.panic "there is always one layer", [.loadState shortstatehash])
      | some layer =>
        match layer.full_state.find? (fun c => c.sKey = shortstatekey) with
        | none => (.err (.database "No shortstatekey in compressed state"), [.loadState shortstatehash])
        | some c =>
          match env.get_eventid_from_short c.sEventId with
          | .error e => (.err e, [.loadState shortstatehash])
          | .ok event_id => (.ok event_id, [.loadState shortstatehash])

/-- `state_get`: `state_get_id` then fetch the PDU from the timeline. -/
def state_get (env : StateEnv) (shortstatehash : ShortStateHash)
    (event_type : StateEventType) (state_key : String) :
    Outcome PduEvent × Trace :=
  match state_get_id env shortstatehash event_type state_key with
  | (.ok event_id, t) =>
    match env.get_pdu event_id with
    | .ok pdu => (.ok pdu, t)
    | .error e => (.err e, t)
  | (.err e, t) => (.err e, t)
  | (.panic s, t) => (.panic s, t)

/-- `state_get_content`: `state_get` then deserialize the event content;
the typed serde instance of the source is the `deser` argument. -/
def state_get_content {α : Type} (env : StateEnv) (shortstatehash : ShortStateHash)
    (event_type : StateEventType) (state_key : String)
    (deser : Json → Except Error α) : Outcome α × Trace :=
  match state_get env shortstatehash event_type state_key with
  | (.ok pdu, t) =>
    match deser pdu.content with
    | .ok c => (.ok c, t)
    | .error e => (.err e, t)
  | (.err e, t) => (.err e, t)
  | (.panic s, t) => (.panic s, t)

/-- `pdu_shortstatehash`: short event id then the
`shorteventid_shortstatehash` keyed lookup. -/
def pdu_shortstatehash (env : StateEnv) (event_id : EventId) :
    Except Error ShortStateHash :=
  match env.get_shorteventid event_id with
  | .error e => .error e
  | .ok se => env.shorteventid_shortstatehash se

/-- `room_state_get`: current state hash of the room, then `state_get`. -/
def room_state_get (env : StateEnv) (room_id : RoomId)
    (event_type : StateEventType) (state_key : String) :
    Outcome PduEvent × Trace :=
  match env.get_room_shortstatehash room_id with
  | .error e => (.err e, [])
  | .ok ssh => state_get env ssh event_type state_key

/-- `room_state_get_content`: current state hash, then typed content. -/
def room_state_get_content {α : Type} (env : StateEnv) (room_id : RoomId)
    (event_type : StateEventType) (state_key : String)
    (deser : Json → Except Error α) : Outcome α × Trace :=
  match env.get_room_shortstatehash room_id with
  | .error e => (.err e, [])
  | .ok ssh => state_get_content env ssh event_type state_key deser

/-! ### Membership and visibility -/

/-- `user_membership`: the user's member event content at the state hash,
defaulting to Leave when the event is absent or fails to deserialize
(`map_or(MembershipState::Leave, ...)`). -/
def user_membership (env : StateEnv) (shortstatehash : ShortStateHash)
    (user_id : UserId) : Outcome MembershipState × Trace :=
  match state_get_content env shortstatehash .roomMember user_id.fullId env.deserMember with
  | (.ok c, t) => (.ok c.membership, t)
  | (.err _, t) => (.ok .leave, t)
  | (.panic s, t) => (.panic s, t)

/-- `user_was_joined`: historical membership equals Join. -/
def user_was_joined (env : StateEnv) (shortstatehash : ShortStateHash)
    (user_id : UserId) : Outcome Bool × Trace :=
  match user_membership env shortstatehash user_id with
  | (.ok m, t) => (.ok (m == .join), t)
  | (.err e, t) => (.err e, t)
  | (.panic s, t) => (.panic s, t)

/-- `user_was_invited`: historical membership is Join or Invite. -/
def user_was_invited (env : StateEnv) (shortstatehash : ShortStateHash)
    (user_id : UserId) : Outcome Bool × Trace :=
  match user_membership env shortstatehash user_id with
  | (.ok m, t) => (.ok (m == .join || m == .invite), t)
  | (.err e, t) => (.err e, t)
  | (.panic s, t) => (.panic s, t)

end Conduwuit

namespace Conduwuit

/-! ### Visibility caches and visibility checks -/

/-- A visibility cache keyed by `(principal, state-hash)` (the LRU bound
and recency bookkeeping do not affect lookup/insert values). Insertion
shadows any older entry for the same key. -/
abbrev VisCache (κ : Type) := List ((κ × ShortStateHash) × Bool)

def cacheGet {κ : Type} [DecidableEq κ] (c : VisCache κ)
    (k : κ × ShortStateHash) : Option Bool :=
  match c.find? fun kv => kv.1 = k with
  | some kv => some kv.2
  | none => none

def cacheInsert {κ : Type} [DecidableEq κ] (c : VisCache κ)
    (k : κ × ShortStateHash) (v : Bool) : VisCache κ :=
  (k, v) :: c

/-- Short-circuiting `Stream::any` over a monadic membership predicate,
accumulating the effect trace of each evaluated member. -/
def anyUserWas (f : UserId → Outcome Bool × Trace) :
    List UserId → Outcome Bool × Trace
  | [] => (.ok false, [])
  | u :: rest =>
    match f u with
    | (.ok true, t) => (.ok true, t)
    | (.ok false, t) =>
      match anyUserWas f rest with
      | (r, t2) => (r, t ++ t2)
    | (.err e, t) => (.err e, t)
    | (.panic s, t) => (.panic s, t)

/-- `server_can_see_event`: default-allow when the event's state hash is
unresolvable; answer from the server-visibility cache on a hit; on a miss
read history-visibility (defaulting to Shared), decide
(WorldReadable/Shared allow; Invited/Joined scan the origin's current
members for historical membership; unknown values deny and log), and
cache the decision. -/
def server_can_see_event (env : StateEnv) (cache : VisCache ServerName)
    (origin : ServerName) (room_id : RoomId) (event_id : EventId) :
    Outcome Bool × Trace × VisCache ServerName :=
  match pdu_shortstatehash env event_id with
  | .error _ => (.ok true, [], cache)
  | .ok ssh =>
    match cacheGet cache (origin, ssh) with
    | some v => (.ok v, [], cache)
    | none =>
      match state_get_content env ssh .roomHistoryVisibility "" env.deserHistVis with
      | (.panic s, t) => (.panic s, t, cache)
      | (hvc, t) =>
        let hv : HistoryVisibility :=
          match hvc with
          | .ok c => c.history_visibility
          | _ => .shared
        let members := (env.room_members room_id).filter fun m => m.server = origin
        let vt : Outcome Bool × Trace :=
          match hv with
          | .worldReadable => (.ok true, [])
          | .shared => (.ok true, [])
          | .invited => anyUserWas (user_was_invited env ssh) members
          | .joined => anyUserWas (user_was_joined env ssh) members
          | .custom _ => (.ok false, [.log "Unknown history visibility"])
        match vt with
        | (.ok v, t2) => (.ok v, t ++ t2, cacheInsert cache (origin, ssh) v)
        | (.err e, t2) => (.err e, t ++ t2, cache)
        | (.panic s, t2) => (.panic s, t ++ t2, cache)

/-- `user_can_see_event`: default-allow when the event's state hash is
unresolvable; answer from the user-visibility cache on a hit; on a miss
read history-visibility (defaulting to Shared), decide (WorldReadable
allows; Shared requires current joined membership; Invited/Joined check
the user's historical membership; unknown values deny and log), and
cache the decision. -/
def user_can_see_event (env : StateEnv) (cache : VisCache UserId)
    (user_id : UserId) (room_id : RoomId) (event_id : EventId) :
    Outcome Bool × Trace × VisCache UserId :=
  match pdu_shortstatehash env event_id with
  | .error _ => (.ok true, [], cache)
  | .ok ssh =>
    match cacheGet cache (user_id, ssh) with
    | some v => (.ok v, [], cache)
    | none =>
      let currently_member := env.is_joined user_id room_id
      match state_get_content env ssh .roomHistoryVisibility "" env.deserHistVis with
      | (.panic s, t) => (.panic s, t, cache)
      | (hvc, t) =>
        let hv : HistoryVisibility :=
          match hvc with
          | .ok c => c.history_visibility
          | _ => .shared
        let vt : Outcome Bool × Trace :=
          match hv with
          | .worldReadable => (.ok true, [])
          | .shared => (.ok currently_member, [])
          | .invited => user_was_invited env ssh user_id
          | .joined => user_was_joined env ssh user_id
          | .custom _ => (.ok false, [.log "Unknown history visibility"])
        match vt with
        | (.ok v, t2) => (.ok v, t ++ t2, cacheInsert cache (user_id, ssh) v)
        | (.err e, t2) => (.err e, t ++ t2, cache)
        | (.panic s, t2) => (.panic s, t ++ t2, cache)

/-! ### Redaction authorization -/

/-- Whether a timeline fetch succeeded with an event of the given kind
(`redacting_event.as_ref().is_ok_and(|pdu| pdu.kind == ...)`). -/
def exceptKindIs (r : Except Error PduEvent) (k : TimelineEventType) : Bool :=
  match r with
  | .ok pdu => pdu.kind == k
  | .error _ => false

/-- `user_can_redact`: hard-deny redacting `m.room.create` and
`m.room.server_acl`; with power levels present, allow on
redact-others power, or redact-own power plus sender-identity (same
server under federation, exact user otherwise); without power levels
fall back to the create event (room creator or original sender); with
neither, a bad-database error. -/
def user_can_redact (env : StateEnv) (redacts : EventId) (sender : UserId)
    (room_id : RoomId) (federation : Bool) : Outcome Bool × Trace :=
  let redacting_event := env.get_pdu redacts
  if exceptKindIs redacting_event .roomCreate then
    (.err (.forbidden "Redacting m.room.create is not safe, forbidding"), [])
  else if exceptKindIs redacting_event .roomServerAcl then
    (.err (.forbidden "Redacting m.room.server_acl will result in the room being inaccessible for everyone, forbidding"), [])
  else
    match room_state_get_content env room_id .roomPowerLevels "" env.deserPL with
    | (.ok pl, t) =>
      (.ok (pl.canRedactOther sender ||
        (pl.canRedactOwn sender &&
          match redacting_event with
          | .ok re => if federation then re.sender.server == sender.server else re.sender == sender
          | .error _ => false)), t)
    | (.err _, t) =>
      match room_state_get env room_id .roomCreate "" with
      | (.ok room_create, t2) =>
        (.ok (room_create.sender == sender ||
          match redacting_event with
          | .ok re => re.sender == sender
          | .error _ => false), t ++ t2)
      | (.err _, t2) =>
        (.err (.badDatabase "No m.room.power_levels or m.room.create events in database for room"), t ++ t2)
      | (.panic s, t2) => (.panic s, t ++ t2)
    | (.panic s, t) => (.panic s, t)

end Conduwuit

namespace Conduwuit

/-! ### Concrete environments used by witnesses -/

/-- A small concrete dispatcher environment for witness evaluation. -/
def sendEnvW : SendEnv where
  PDU_LIMIT := 2
  EDU_LIMIT := 2
  parse_incoming_pdu := fun raw =>
    if raw = "bad" then .error (.parse "invalid json")
    else .ok ("!r:s.org", "$" ++ raw, raw)
  parse_edu := fun _ => none
  running := fun i => i < 1
  handle_incoming_pdu := fun _ _ event_id _ =>
    if event_id = "$fail" then .error (.forbidden "auth failure") else .ok ()
  allow_incoming_presence := true
  allow_incoming_read_receipts := true
  allow_incoming_typing := true
  acl_check := fun _ _ => .ok ()
  is_joined := fun _ _ => true
  room_members := fun _ => []
  existing_txnid := fun _ _ => false
  deser_to_device := fun j => .ok j
  all_device_ids := fun _ => []
  now_ms := 0
  typing_federation_timeout_s := 30

/-- Like `sendEnvW` but the server never shuts down. -/
def sendEnvRun : SendEnv := { sendEnvW with running := fun _ => true }

/-- C1: a transaction whose declared envelope origin differs from the
authenticated transport origin, or whose PDU or EDU count exceeds its
limit, is rejected whole with a Forbidden (policy-violation) error and
an empty effect trace: no collaborator is invoked and no partial side
effect occurs. -/
theorem claim_C1_reject_before_processing (env : SendEnv) (body : TxnRequest)
    (h : body.authOrigin ≠ body.origin ∨ env.PDU_LIMIT < body.pdus.length ∨
      env.EDU_LIMIT < body.edus.length) :
    (∃ msg, (send_transaction_message_route env body).1 = .err (.forbidden msg)) ∧
    (send_transaction_message_route env body).2 = [] := by
  unfold send_transaction_message_route
  by_cases h1 : body.authOrigin = body.origin
  · by_cases h2 : env.PDU_LIMIT < body.pdus.length
    · simp [h1, h2]
    · have h3 : env.EDU_LIMIT < body.edus.length := by
        rcases h with h | h | h
        · exact absurd h1 h
        · exact absurd h h2
        · exact h
      simp [h1, h2, h3]
  · simp [h1]

/-- Witness for C1 at a concrete origin-mismatched transaction. -/
theorem claim_C1_reject_before_processing_witness :
    (∃ msg, (send_transaction_message_route sendEnvW
      { authOrigin := "a.org", origin := "b.org", pdus := ["x"], edus := [] }).1 =
        .err (.forbidden msg)) ∧
    (send_transaction_message_route sendEnvW
      { authOrigin := "a.org", origin := "b.org", pdus := ["x"], edus := [] }).2 = [] :=
  claim_C1_reject_before_processing sendEnvW _ (Or.inl (by decide))

end Conduwuit

namespace Conduwuit

/-! ### Lemmas about the per-room loop -/

theorem handle_room_loop_ok (env : SendEnv) (origin : ServerName)
    (room_id : RoomId) (pdus : List Pdu) (i0 : Nat)
    (h : ∀ j, j < pdus.length → env.running (i0 + j) = true) :
    handle_room_loop env origin room_id i0 pdus =
      (.ok (pdus.map fun p => (p.2.1, env.handle_incoming_pdu origin room_id p.2.1 p.2.2)),
       pdus.map fun p => .handlePdu origin room_id p.2.1) := by
  induction pdus generalizing i0 with
  | nil => rfl
  | cons p rest ih =>
    have h0 : env.running i0 = true := by simpa using h 0 (by simp)
    have hrest := ih (i0 + 1) ?_
    · simp [handle_room_loop, h0, hrest]
    · intro j hj
      have hx : i0 + 1 + j = i0 + (j + 1) := by omega
      rw [hx]
      exact h (j + 1) (by simp; omega)

theorem handle_room_loop_shutdown (env : SendEnv) (origin : ServerName)
    (room_id : RoomId) (pdus : List Pdu) (i0 k : Nat)
    (hk : k < pdus.length)
    (hrun : ∀ j, j < k → env.running (i0 + j) = true)
    (hstop : env.running (i0 + k) = false) :
    handle_room_loop env origin room_id i0 pdus =
      (.err (.cancelled "server is shutting down"),
       (pdus.take k).map fun p => .handlePdu origin room_id p.2.1) := by
  induction pdus generalizing i0 k with
  | nil => simp at hk
  | cons p rest ih =>
    cases k with
    | zero =>
      have h0 : env.running i0 = false := by simpa using hstop
      simp [handle_room_loop, h0]
    | succ k =>
      have h0 : env.running i0 = true := by simpa using hrun 0 (by omega)
      have hrest := ih (i0 + 1) k (by simp at hk; omega) ?_ ?_
      · simp [handle_room_loop, h0, hrest]
      · intro j hj
        have hx : i0 + 1 + j = i0 + (j + 1) := by omega
        rw [hx]
        exact hrun (j + 1) (by omega)
      · have hx : i0 + 1 + k = i0 + (k + 1) := by omega
        rw [hx]
        exact hstop

theorem runRooms_ok (env : SendEnv) (origin : ServerName)
    (h : ∀ j, env.running j = true) (groups : List (RoomId × List Pdu)) :
    runRooms env origin groups =
      (.ok (groups.flatMap fun g =>
         g.2.map fun p => (p.2.1, env.handle_incoming_pdu origin g.1 p.2.1 p.2.2)),
       groups.flatMap fun g =>
         .lockRoom g.1 :: g.2.map fun p => .handlePdu origin g.1 p.2.1) := by
  induction groups with
  | nil => rfl
  | cons g rest ih =>
    have hg := handle_room_loop_ok env origin g.1 g.2 0 fun j _ => by simpa using h j
    simp [runRooms, handle_room, hg, ih]

/-- C2: within a room's sequential PDU application, each PDU's failure is
recorded in its own result entry and aborts nothing: with the server
running throughout, the result holds one entry per PDU, each entry being
exactly that PDU's own `handle_incoming_pdu` result, and different rooms
contribute independent entries; only the shutdown condition, polled
before each PDU, short-circuits the room's remaining PDUs with a fatal
result, and the effect trace of the already-applied PDUs (a prefix of
the full run) is kept — nothing is rolled back. -/
theorem claim_C2_pdu_failure_isolated (env : SendEnv) (origin : ServerName)
    (room_id : RoomId) (pdus : List Pdu) :
    ((∀ j, j < pdus.length → env.running j = true) →
      handle_room env origin room_id pdus =
        (.ok (pdus.map fun p => (p.2.1, env.handle_incoming_pdu origin room_id p.2.1 p.2.2)),
         .lockRoom room_id :: pdus.map fun p => .handlePdu origin room_id p.2.1)) ∧
    (∀ k, k < pdus.length → (∀ j, j < k → env.running j = true) →
      env.running k = false →
      handle_room env origin room_id pdus =
        (.err (.cancelled "server is shutting down"),
         .lockRoom room_id :: (pdus.take k).map fun p => .handlePdu origin room_id p.2.1)) ∧
    ((∀ j, env.running j = true) → ∀ groups : List (RoomId × List Pdu),
      runRooms env origin groups =
        (.ok (groups.flatMap fun g =>
           g.2.map fun p => (p.2.1, env.handle_incoming_pdu origin g.1 p.2.1 p.2.2)),
         groups.flatMap fun g =>
           .lockRoom g.1 :: g.2.map fun p => .handlePdu origin g.1 p.2.1)) := by
  refine ⟨?_, ?_, ?_⟩
  · intro h
    have hg := handle_room_loop_ok env origin room_id pdus 0 fun j hj => by simpa using h j hj
    simp [handle_room, hg]
  · intro k hk hrun hstop
    have hg := handle_room_loop_shutdown env origin room_id pdus 0 k hk
      (fun j hj => by simpa using hrun j hj) (by simpa using hstop)
    simp [handle_room, hg]
  · intro h groups
    exact runRooms_ok env origin h groups

/-- Witness for C2: a room with a failing middle PDU still yields all
three entries when running; with shutdown after one PDU, only the first
PDU is applied and the room aborts with the fatal error. -/
theorem claim_C2_pdu_failure_isolated_witness :
    handle_room sendEnvRun "o.org" "!r:s.org"
        [("!r:s.org", "$a", "ja"), ("!r:s.org", "$fail", "jf"), ("!r:s.org", "$b", "jb")] =
      (.ok [("$a", .ok ()), ("$fail", .error (.forbidden "auth failure")), ("$b", .ok ())],
       [.lockRoom "!r:s.org", .handlePdu "o.org" "!r:s.org" "$a",
        .handlePdu "o.org" "!r:s.org" "$fail", .handlePdu "o.org" "!r:s.org" "$b"]) ∧
    handle_room sendEnvW "o.org" "!r:s.org"
        [("!r:s.org", "$a", "ja"), ("!r:s.org", "$fail", "jf"), ("!r:s.org", "$b", "jb")] =
      (.err (.cancelled "server is shutting down"),
       [.lockRoom "!r:s.org", .handlePdu "o.org" "!r:s.org" "$a"]) := by
  constructor
  · exact (claim_C2_pdu_failure_isolated sendEnvRun "o.org" "!r:s.org" _).1
      (fun j _ => rfl)
  · exact (claim_C2_pdu_failure_isolated sendEnvW "o.org" "!r:s.org" _).2.1 1
      (by decide)
      (fun j hj => by
        have hj0 : j = 0 := by omega
        subst hj0; rfl)
      (by decide)

end Conduwuit

namespace Conduwuit

/-! ### Lemmas about the collected result map -/

theorem mapInsert_fst {α : Type} (m : List (EventId × α)) (k : EventId) (v : α) :
    (mapInsert m k v).map Prod.fst =
      if k ∈ m.map Prod.fst then m.map Prod.fst else m.map Prod.fst ++ [k] := by
  by_cases h : k ∈ m.map Prod.fst
  · have hany : (m.any fun kv => kv.1 = k) = true := by
      rcases List.mem_map.mp h with ⟨kv, hkv, rfl⟩
      exact List.any_eq_true.mpr ⟨kv, hkv, by simp⟩
    simp only [mapInsert, hany, if_pos h, if_true, List.map_map]
    refine List.map_congr_left fun kv _ => ?_
    by_cases hkv : kv.1 = k
    · simp [Function.comp, hkv]
    · simp [Function.comp, hkv]
  · have hany : (m.any fun kv => kv.1 = k) = false := by
      rw [List.any_eq_false]
      intro kv hkv
      simp only [decide_eq_true_eq]
      intro hc
      exact h (List.mem_map.mpr ⟨kv, hkv, hc⟩)
    simp [mapInsert, hany, if_neg h]

theorem mapInsert_fst_mem {α : Type} (m : List (EventId × α)) (k k2 : EventId) (v : α) :
    k2 ∈ (mapInsert m k v).map Prod.fst ↔ k2 ∈ m.map Prod.fst ∨ k2 = k := by
  rw [mapInsert_fst]
  by_cases h : k ∈ m.map Prod.fst
  · rw [if_pos h]
    constructor
    · exact Or.inl
    · rintro (h2 | rfl)
      · exact h2
      · exact h
  · rw [if_neg h]
    simp

theorem mapInsert_fst_nodup {α : Type} (m : List (EventId × α)) (k : EventId) (v : α)
    (h : (m.map Prod.fst).Nodup) : ((mapInsert m k v).map Prod.fst).Nodup := by
  rw [mapInsert_fst]
  by_cases hm : k ∈ m.map Prod.fst
  · rwa [if_pos hm]
  · rw [if_neg hm]
    rw [List.nodup_append]
    refine ⟨h, List.nodup_singleton k, fun a ha hb => ?_⟩
    simp only [List.mem_singleton] at hb
    subst hb
    exact hm ha

theorem collectMap_go_mem {α : Type} (entries : List (EventId × α)) :
    ∀ (m : List (EventId × α)) (k : EventId),
      k ∈ ((entries.foldl (fun m kv => mapInsert m kv.1 kv.2) m).map Prod.fst) ↔
        k ∈ m.map Prod.fst ∨ k ∈ entries.map Prod.fst := by
  induction entries with
  | nil => simp
  | cons e rest ih =>
    intro m k
    simp only [List.foldl_cons, List.map_cons, List.mem_cons]
    rw [ih (mapInsert m e.1 e.2) k, mapInsert_fst_mem]
    tauto

theorem collectMap_go_nodup {α : Type} (entries : List (EventId × α)) :
    ∀ m : List (EventId × α), (m.map Prod.fst).Nodup →
      ((entries.foldl (fun m kv => mapInsert m kv.1 kv.2) m).map Prod.fst).Nodup := by
  induction entries with
  | nil => intro m h; simpa using h
  | cons e rest ih =>
    intro m h
    exact ih (mapInsert m e.1 e.2) (mapInsert_fst_nodup m e.1 e.2 h)

theorem collectMap_fst_mem {α : Type} (entries : List (EventId × α)) (k : EventId) :
    k ∈ (collectMap entries).map Prod.fst ↔ k ∈ entries.map Prod.fst := by
  rw [collectMap, collectMap_go_mem]
  simp

theorem collectMap_fst_nodup {α : Type} (entries : List (EventId × α)) :
    ((collectMap entries).map Prod.fst).Nodup :=
  collectMap_go_nodup entries [] (by simp)

theorem groupByRoom_mem_ids (pdus : List Pdu) (k : EventId) :
    (k ∈ (groupByRoom pdus).flatMap fun g => g.2.map fun p => p.2.1) ↔
      k ∈ pdus.map fun p => p.2.1 := by
  constructor
  · intro h
    obtain ⟨g, hg, h2⟩ := List.mem_flatMap.mp h
    obtain ⟨r, _, rfl⟩ := List.mem_map.mp hg
    obtain ⟨p, hp, rfl⟩ := List.mem_map.mp h2
    exact List.mem_map.mpr ⟨p, (List.mem_filter.mp hp).1, rfl⟩
  · intro h
    obtain ⟨p, hp, rfl⟩ := List.mem_map.mp h
    refine List.mem_flatMap.mpr ⟨(p.1, pdus.filter fun q => q.1 = p.1), ?_, ?_⟩
    · refine List.mem_map.mpr ⟨p.1, ?_, rfl⟩
      rw [List.mem_dedup]
      exact List.mem_map.mpr ⟨p, hp, rfl⟩
    · exact List.mem_map.mpr ⟨p, List.mem_filter.mpr ⟨hp, by simp⟩, rfl⟩

end Conduwuit

namespace Conduwuit

theorem handle_ok (env : SendEnv) (origin : ServerName) (pdus : List Pdu)
    (edus : List Edu) (hrun : ∀ j, env.running j = true) :
    handle env origin pdus edus =
      (.ok (collectMap ((groupByRoom pdus).flatMap fun g =>
         g.2.map fun p => (p.2.1, env.handle_incoming_pdu origin g.1 p.2.1 p.2.2))),
       ((groupByRoom pdus).flatMap fun g =>
          .lockRoom g.1 :: g.2.map fun p => .handlePdu origin g.1 p.2.1)
         ++ edus.flatMap (handle_edu env origin)) := by
  unfold handle
  rw [runRooms_ok env origin hrun]

theorem route_ok (env : SendEnv) (body : TxnRequest)
    (h1 : body.authOrigin = body.origin)
    (h2 : body.pdus.length ≤ env.PDU_LIMIT)
    (h3 : body.edus.length ≤ env.EDU_LIMIT)
    (hrun : ∀ j, env.running j = true) :
    send_transaction_message_route env body =
      (.ok ((collectMap ((groupByRoom (body.pdus.filterMap fun raw =>
          (env.parse_incoming_pdu raw).toOption)).flatMap fun g =>
          g.2.map fun p =>
            (p.2.1, env.handle_incoming_pdu body.authOrigin g.1 p.2.1 p.2.2))).map
        fun er => (er.1, er.2.mapError sanitized_message)),
       body.pdus.map Eff.parsePdu ++
        (((groupByRoom (body.pdus.filterMap fun raw =>
            (env.parse_incoming_pdu raw).toOption)).flatMap fun g =>
           .lockRoom g.1 :: g.2.map fun p => .handlePdu body.authOrigin g.1 p.2.1)
          ++ (body.edus.filterMap env.parse_edu).flatMap (handle_edu env body.authOrigin))) := by
  have hne : ¬ body.authOrigin ≠ body.origin := by simpa using h1
  have h2' : ¬ env.PDU_LIMIT < body.pdus.length := by omega
  have h3' : ¬ env.EDU_LIMIT < body.edus.length := by omega
  unfold send_transaction_message_route
  rw [if_neg hne, if_neg h2', if_neg h3']
  simp only [handle_ok env body.authOrigin
    (body.pdus.filterMap fun raw => (env.parse_incoming_pdu raw).toOption)
    (body.edus.filterMap env.parse_edu) hrun]

/-- C7: under the transaction guards and with the server running, the
route succeeds and the response map's keys are exactly the event ids of
the PDUs that parsed successfully, each exactly once: a PDU failing JSON
parsing contributes no entry, and every successfully parsed PDU yields
exactly one (sanitized) entry. -/
theorem claim_C7_parse_failures_absent (env : SendEnv) (body : TxnRequest)
    (h1 : body.authOrigin = body.origin)
    (h2 : body.pdus.length ≤ env.PDU_LIMIT)
    (h3 : body.edus.length ≤ env.EDU_LIMIT)
    (hrun : ∀ j, env.running j = true) :
    ∃ resp t, send_transaction_message_route env body = (.ok resp, t) ∧
      (resp.map Prod.fst).Nodup ∧
      ∀ event_id, event_id ∈ resp.map Prod.fst ↔
        event_id ∈ (body.pdus.filterMap fun raw =>
          (env.parse_incoming_pdu raw).toOption).map fun p => p.2.1 := by
  refine ⟨_, _, route_ok env body h1 h2 h3 hrun, ?_, ?_⟩
  · have h := collectMap_fst_nodup ((groupByRoom (body.pdus.filterMap fun raw =>
      (env.parse_incoming_pdu raw).toOption)).flatMap fun g =>
      g.2.map fun p => (p.2.1, env.handle_incoming_pdu body.authOrigin g.1 p.2.1 p.2.2))
    rw [List.map_map]
    exact h
  · intro event_id
    rw [List.map_map]
    have hm := collectMap_fst_mem ((groupByRoom (body.pdus.filterMap fun raw =>
      (env.parse_incoming_pdu raw).toOption)).flatMap fun g =>
      g.2.map fun p => (p.2.1, env.handle_incoming_pdu body.authOrigin g.1 p.2.1 p.2.2))
      event_id
    rw [show (Prod.fst ∘ fun er : EventId × Except Error Unit =>
        (er.1, er.2.mapError sanitized_message)) = Prod.fst from rfl]
    rw [hm, List.map_flatMap]
    simp only [List.map_map]
    exact groupByRoom_mem_ids _ event_id

end Conduwuit

namespace Conduwuit

/-- Witness for C7: one parseable and one unparseable PDU; the response
keys are exactly the parsed PDU's event id. -/
theorem claim_C7_parse_failures_absent_witness :
    ∃ resp t, send_transaction_message_route sendEnvRun
        { authOrigin := "a.org", origin := "a.org", pdus := ["good", "bad"], edus := [] } =
      (.ok resp, t) ∧
      (resp.map Prod.fst).Nodup ∧
      ∀ event_id, event_id ∈ resp.map Prod.fst ↔
        event_id ∈ ((["good", "bad"] : List Json).filterMap fun raw =>
          (sendEnvRun.parse_incoming_pdu raw).toOption).map fun p => p.2.1 :=
  claim_C7_parse_failures_absent sendEnvRun
    { authOrigin := "a.org", origin := "a.org", pdus := ["good", "bad"], edus := [] }
    rfl (by decide) (by decide) (fun j => rfl)

theorem presence_mutations (origin : ServerName) (l : List PresenceUpdate) :
    mutations (l.flatMap fun update =>
      if update.user_id.server ≠ origin then
        [.log "received presence EDU for user not belonging to origin"]
      else
        [.setPresence update.user_id]) =
    (l.filter fun u => u.user_id.server == origin).map fun u => .setPresence u.user_id := by
  induction l with
  | nil => rfl
  | cons u rest ih =>
    unfold mutations at ih ⊢
    rw [List.flatMap_cons, List.filter_append, List.filter_cons, ih]
    by_cases hu : u.user_id.server = origin
    · have hbeq : (u.user_id.server == origin) = true := by simpa using hu
      rw [if_neg (not_not_intro hu), hbeq]
      simp [Eff.isMutation]
    · have hbeq : (u.user_id.server == origin) = false := by simpa using hu
      rw [if_pos hu, hbeq]
      simp [Eff.isMutation]

/-- C4: origin-ownership of EDU payload principals.  For presence, the
mutating effects are exactly one `set_presence` per pushed entry whose
user belongs to the authenticated origin — entries referencing a foreign
user mutate nothing while the rest of the batch still proceeds — and a
foreign entry produces only a diagnostic log.  For direct-to-device, a
foreign sender drops the whole EDU: the handler emits exactly one
diagnostic log and no mutation.  Handlers return only an effect trace,
so no peer-visible error is ever raised. -/
theorem claim_C4_edu_origin_ownership (env : SendEnv) (origin : ServerName)
    (presence : PresenceContent) (content : DirectDeviceContent) :
    (env.allow_incoming_presence = true →
      mutations (handle_edu_presence env origin presence) =
        (presence.push.filter fun u => u.user_id.server == origin).map
          fun u => .setPresence u.user_id) ∧
    (content.sender.server ≠ origin →
      handle_edu_direct_to_device env origin content =
        [.log "received direct to device EDU for user not belonging to origin"] ∧
      mutations (handle_edu_direct_to_device env origin content) = []) := by
  constructor
  · intro hallow
    unfold handle_edu_presence
    rw [if_neg (by rw [hallow]; simp)]
    exact presence_mutations origin presence.push
  · intro hs
    unfold handle_edu_direct_to_device
    rw [if_pos hs]
    exact ⟨rfl, rfl⟩

end Conduwuit

namespace Conduwuit

def uAlice : UserId := ⟨"alice", "a.org"⟩
def uBob : UserId := ⟨"bob", "b.org"⟩

/-- Witness for C4: a presence EDU with one owned and one foreign entry
mutates only the owned one; a direct-to-device EDU from a foreign sender
yields a single diagnostic and no mutation. -/
theorem claim_C4_edu_origin_ownership_witness :
    mutations (handle_edu_presence sendEnvRun "a.org"
      ⟨[⟨uAlice, "online", true, 0, none⟩, ⟨uBob, "online", true, 0, none⟩]⟩) =
      [.setPresence uAlice] ∧
    handle_edu_direct_to_device sendEnvRun "a.org" ⟨uBob, "m.t", "mid", []⟩ =
      [.log "received direct to device EDU for user not belonging to origin"] ∧
    mutations (handle_edu_direct_to_device sendEnvRun "a.org" ⟨uBob, "m.t", "mid", []⟩) = [] := by
  refine ⟨?_, ?_, ?_⟩
  · rw [(claim_C4_edu_origin_ownership sendEnvRun "a.org"
      ⟨[⟨uAlice, "online", true, 0, none⟩, ⟨uBob, "online", true, 0, none⟩]⟩
      ⟨uBob, "m.t", "mid", []⟩).1 rfl]
    decide
  · exact ((claim_C4_edu_origin_ownership sendEnvRun "a.org"
      ⟨[⟨uAlice, "online", true, 0, none⟩, ⟨uBob, "online", true, 0, none⟩]⟩
      ⟨uBob, "m.t", "mid", []⟩).2 (by decide)).1
  · exact ((claim_C4_edu_origin_ownership sendEnvRun "a.org"
      ⟨[⟨uAlice, "online", true, 0, none⟩, ⟨uBob, "online", true, 0, none⟩]⟩
      ⟨uBob, "m.t", "mid", []⟩).2 (by decide)).2

/-! ### C8: the core resolution path and the one-layer invariant -/

/-- A state environment whose compressed-state collaborator returns an
empty layer list. -/
def stateEnvE : StateEnv where
  get_shorteventid := fun _ => .ok 1
  shorteventid_shortstatehash := fun _ => .ok 1
  load_shortstatehash_info := fun _ => .ok []
  get_shortstatekey := fun _ _ => .ok 1
  get_eventid_from_short := fun _ => .ok "$e"
  get_pdu := fun _ => .error (.notFound "event not found")
  get_room_shortstatehash := fun _ => .ok 1
  is_joined := fun _ _ => false
  room_members := fun _ => []
  deserMember := fun _ => .error (.parse "bad content")
  deserHistVis := fun _ => .error (.parse "bad content")
  deserPL := fun _ => .error (.parse "bad content")

/-- A state environment with a single (empty) layer. -/
def stateEnvOne : StateEnv :=
  { stateEnvE with load_shortstatehash_info := fun _ => .ok [⟨[]⟩] }

/-- Counterexample to C8 as stated: with an empty layer list from the
collaborator, `state_full_shortids` panics (the source's
`expect("there is always one layer")` on `Vec::pop`) instead of yielding
a missing-state error result. -/
theorem claim_C8_counterexample :
    (state_full_shortids stateEnvE 1).1 = .panic "there is always one layer" := rfl

/-- C8 (amended): provided the compressed-state collaborator returns a
non-empty layer list — the invariant the source asserts with
`expect("there is always one layer")` — the core resolution path
(`state_full_shortids`, `state_get_id`, and the getters funnelling
through them) never panics: every failure at any hop, including a
missing state-key prefix, yields an error result. -/
theorem claim_C8_no_panic_given_one_layer (env : StateEnv)
    (hwf : ∀ h layers, env.load_shortstatehash_info h = .ok layers → layers ≠ [])
    {α : Type} (deser : Json → Except Error α) :
    ∀ ssh event_type state_key,
      (state_full_shortids env ssh).1.isPanic = false ∧
      (state_get_id env ssh event_type state_key).1.isPanic = false ∧
      (state_get env ssh event_type state_key).1.isPanic = false ∧
      (state_get_content env ssh event_type state_key deser).1.isPanic = false := by
  intro ssh event_type state_key
  have h1 : (state_full_shortids env ssh).1.isPanic = false := by
    unfold state_full_shortids
    cases hload : env.load_shortstatehash_info ssh with
    | error e => rfl
    | ok layers =>
      cases hl : layers.getLast? with
      | none =>
        exact absurd (List.getLast?_eq_none_iff.mp hl) (hwf ssh layers hload)
      | some layer => simp [hl, Outcome.isPanic]
  have h2 : (state_get_id env ssh event_type state_key).1.isPanic = false := by
    unfold state_get_id
    cases hsk : env.get_shortstatekey event_type state_key with
    | error e => rfl
    | ok shortstatekey =>
      cases hload : env.load_shortstatehash_info ssh with
      | error e => rfl
      | ok layers =>
        cases hl : layers.getLast? with
        | none =>
          exact absurd (List.getLast?_eq_none_iff.mp hl) (hwf ssh layers hload)
        | some layer =>
          cases hf : layer.full_state.find? fun c => c.sKey = shortstatekey with
          | none => simp [hl, hf, Outcome.isPanic]
          | some c =>
            cases hev : env.get_eventid_from_short c.sEventId with
            | error e => simp [hl, hf, hev, Outcome.isPanic]
            | ok event_id => simp [hl, hf, hev, Outcome.isPanic]
  have h3 : (state_get env ssh event_type state_key).1.isPanic = false := by
    unfold state_get
    rcases hsgi : state_get_id env ssh event_type state_key with ⟨r, t⟩
    cases r with
    | ok eid =>
      cases hp : env.get_pdu eid with
      | error e => simp [hp, Outcome.isPanic]
      | ok pdu => simp [hp, Outcome.isPanic]
    | err e => rfl
    | panic s =>
      rw [hsgi] at h2
      simp [Outcome.isPanic] at h2
  refine ⟨h1, h2, h3, ?_⟩
  unfold state_get_content
  rcases hsg : state_get env ssh event_type state_key with ⟨r, t⟩
  cases r with
  | ok pdu =>
    cases hd : deser pdu.content with
    | error e => simp [hd, Outcome.isPanic]
    | ok c => simp [hd, Outcome.isPanic]
  | err e => rfl
  | panic s =>
    rw [hsg] at h3
    simp [Outcome.isPanic] at h3

/-- Witness for C8 (amended) with a single-layer environment. -/
theorem claim_C8_no_panic_given_one_layer_witness :
    (state_full_shortids stateEnvOne 1).1.isPanic = false ∧
    (state_get_id stateEnvOne 1 .roomMember "k").1.isPanic = false ∧
    (state_get stateEnvOne 1 .roomMember "k").1.isPanic = false ∧
    (state_get_content stateEnvOne 1 .roomMember "k" stateEnvOne.deserMember).1.isPanic
      = false :=
  claim_C8_no_panic_given_one_layer stateEnvOne
    (by
      intro h layers hl
      injection hl with h2
      subst h2
      simp)
    stateEnvOne.deserMember 1 .roomMember "k"

end Conduwuit

namespace Conduwuit

/-! ### C10: membership defaulting -/

/-- A state environment whose state holds a history-visibility event
(Invited) but no member event for any user. -/
def stateEnvM : StateEnv where
  get_shorteventid := fun _ => .ok 1
  shorteventid_shortstatehash := fun _ => .ok 7
  load_shortstatehash_info := fun _ => .ok [⟨[⟨1, 10⟩]⟩]
  get_shortstatekey := fun event_type _ =>
    if event_type = .roomHistoryVisibility then .ok 1 else .ok 2
  get_eventid_from_short := fun _ => .ok "$hv"
  get_pdu := fun event_id =>
    if event_id = "$hv" then
      .ok ⟨.other "m.room.history_visibility", uAlice, some "", "hv_invited"⟩
    else .error (.notFound "event not found")
  get_room_shortstatehash := fun _ => .ok 7
  is_joined := fun _ _ => false
  room_members := fun _ => [uAlice]
  deserMember := fun _ => .error (.parse "bad content")
  deserHistVis := fun j =>
    if j = "hv_invited" then .ok ⟨.invited⟩ else .error (.parse "bad content")
  deserPL := fun _ => .error (.parse "bad content")

/-- C10: if the user's member event is absent at a state-hash, or its
content fails to deserialize, the membership is taken to be Leave;
consequently `user_was_joined` and `user_was_invited` are false, and the
Invited/Joined branches of both visibility checks deny for such a
user. -/
theorem claim_C10_missing_membership_is_leave (env : StateEnv)
    (ssh : ShortStateHash) (user_id : UserId) :
    (∀ e t, state_get env ssh .roomMember user_id.fullId = (.err e, t) →
      user_membership env ssh user_id = (.ok .leave, t)) ∧
    (∀ pdu t e, state_get env ssh .roomMember user_id.fullId = (.ok pdu, t) →
      env.deserMember pdu.content = .error e →
      user_membership env ssh user_id = (.ok .leave, t)) ∧
    (∀ t, user_membership env ssh user_id = (.ok .leave, t) →
      user_was_joined env ssh user_id = (.ok false, t) ∧
      user_was_invited env ssh user_id = (.ok false, t)) ∧
    (∀ (cache : VisCache UserId) room_id event_id c thv tm,
      pdu_shortstatehash env event_id = .ok ssh →
      cacheGet cache (user_id, ssh) = none →
      state_get_content env ssh .roomHistoryVisibility "" env.deserHistVis = (.ok c, thv) →
      (c.history_visibility = .invited ∨ c.history_visibility = .joined) →
      user_membership env ssh user_id = (.ok .leave, tm) →
      (user_can_see_event env cache user_id room_id event_id).1 = .ok false) ∧
    (∀ (cache : VisCache ServerName) room_id event_id origin c thv tm,
      pdu_shortstatehash env event_id = .ok ssh →
      cacheGet cache (origin, ssh) = none →
      state_get_content env ssh .roomHistoryVisibility "" env.deserHistVis = (.ok c, thv) →
      (c.history_visibility = .invited ∨ c.history_visibility = .joined) →
      (env.room_members room_id).filter (fun m => m.server = origin) = [user_id] →
      user_membership env ssh user_id = (.ok .leave, tm) →
      (server_can_see_event env cache origin room_id event_id).1 = .ok false) := by
  refine ⟨?_, ?_, ?_, ?_, ?_⟩
  · intro e t h
    unfold user_membership state_get_content
    rw [h]
  · intro pdu t e h hd
    unfold user_membership state_get_content
    rw [h]
    simp [hd]
  · intro t h
    constructor
    · unfold user_was_joined
      rw [h]
      rfl
    · unfold user_was_invited
      rw [h]
      rfl
  · intro cache room_id event_id c thv tm hssh hcache hhv hvor hm
    have huwi : user_was_invited env ssh user_id = (.ok false, tm) := by
      unfold user_was_invited
      rw [hm]
      rfl
    have huwj : user_was_joined env ssh user_id = (.ok false, tm) := by
      unfold user_was_joined
      rw [hm]
      rfl
    unfold user_can_see_event
    rcases hvor with hv | hv
    · simp [hssh, hcache, hhv, hv, huwi]
    · simp [hssh, hcache, hhv, hv, huwj]
  · intro cache room_id event_id origin c thv tm hssh hcache hhv hvor hmem hm
    have huwi : user_was_invited env ssh user_id = (.ok false, tm) := by
      unfold user_was_invited
      rw [hm]
      rfl
    have huwj : user_was_joined env ssh user_id = (.ok false, tm) := by
      unfold user_was_joined
      rw [hm]
      rfl
    unfold server_can_see_event
    rcases hvor with hv | hv
    · simp [hssh, hcache, hhv, hv, hmem, anyUserWas, huwi]
    · simp [hssh, hcache, hhv, hv, hmem, anyUserWas, huwj]

/-- Witness for C10 in `stateEnvM` (history-visibility Invited, no
member event anywhere). -/
theorem claim_C10_missing_membership_is_leave_witness :
    user_membership stateEnvM 7 uAlice = (.ok .leave, [.loadState 7]) ∧
    user_was_joined stateEnvM 7 uAlice = (.ok false, [.loadState 7]) ∧
    user_was_invited stateEnvM 7 uAlice = (.ok false, [.loadState 7]) ∧
    (user_can_see_event stateEnvM [] uAlice "!r:s.org" "$ev").1 = .ok false ∧
    (server_can_see_event stateEnvM [] "a.org" "!r:s.org" "$ev").1 = .ok false := by
  have hthm := claim_C10_missing_membership_is_leave stateEnvM 7 uAlice
  have hmem : user_membership stateEnvM 7 uAlice = (.ok .leave, [.loadState 7]) :=
    hthm.1 (.database "No shortstatekey in compressed state") [.loadState 7] rfl
  refine ⟨hmem, (hthm.2.2.1 [.loadState 7] hmem).1, (hthm.2.2.1 [.loadState 7] hmem).2, ?_, ?_⟩
  · exact hthm.2.2.2.1 [] "!r:s.org" "$ev" ⟨.invited⟩ [.loadState 7] [.loadState 7]
      rfl rfl rfl (Or.inl rfl) hmem
  · exact hthm.2.2.2.2 [] "!r:s.org" "$ev" "a.org" ⟨.invited⟩ [.loadState 7] [.loadState 7]
      rfl rfl rfl (Or.inl rfl) rfl hmem

end Conduwuit

namespace Conduwuit

/-! ### C5: visibility cache idempotence -/

theorem cacheGet_insert {κ : Type} [DecidableEq κ] (c : VisCache κ)
    (k : κ × ShortStateHash) (v : Bool) :
    cacheGet (cacheInsert c k v) k = some v := by
  unfold cacheGet cacheInsert
  rw [List.find?_cons_of_pos _ (by simp)]

theorem server_can_see_event_hit (env : StateEnv) (cache : VisCache ServerName)
    (origin : ServerName) (room_id : RoomId) (event_id : EventId)
    (ssh : ShortStateHash) (v : Bool)
    (hssh : pdu_shortstatehash env event_id = .ok ssh)
    (hhit : cacheGet cache (origin, ssh) = some v) :
    server_can_see_event env cache origin room_id event_id = (.ok v, [], cache) := by
  unfold server_can_see_event
  simp [hssh, hhit]

theorem user_can_see_event_hit (env : StateEnv) (cache : VisCache UserId)
    (user_id : UserId) (room_id : RoomId) (event_id : EventId)
    (ssh : ShortStateHash) (v : Bool)
    (hssh : pdu_shortstatehash env event_id = .ok ssh)
    (hhit : cacheGet cache (user_id, ssh) = some v) :
    user_can_see_event env cache user_id room_id event_id = (.ok v, [], cache) := by
  unfold user_can_see_event
  simp [hssh, hhit]

theorem server_can_see_event_miss_inserts (env : StateEnv)
    (cache : VisCache ServerName) (origin : ServerName) (room_id : RoomId)
    (event_id : EventId) (ssh : ShortStateHash) (v : Bool) (t : Trace)
    (c1 : VisCache ServerName)
    (hssh : pdu_shortstatehash env event_id = .ok ssh)
    (hmiss : cacheGet cache (origin, ssh) = none)
    (h : server_can_see_event env cache origin room_id event_id = (.ok v, t, c1)) :
    c1 = cacheInsert cache (origin, ssh) v := by
  unfold server_can_see_event at h
  simp only [hssh, hmiss] at h
  split at h
  · simp at h
  · split at h
    · simp only [Prod.mk.injEq] at h
      obtain ⟨h1, _, h3⟩ := h
      cases h1
      exact h3.symm
    · simp at h
    · simp at h

theorem user_can_see_event_miss_inserts (env : StateEnv)
    (cache : VisCache UserId) (user_id : UserId) (room_id : RoomId)
    (event_id : EventId) (ssh : ShortStateHash) (v : Bool) (t : Trace)
    (c1 : VisCache UserId)
    (hssh : pdu_shortstatehash env event_id = .ok ssh)
    (hmiss : cacheGet cache (user_id, ssh) = none)
    (h : user_can_see_event env cache user_id room_id event_id = (.ok v, t, c1)) :
    c1 = cacheInsert cache (user_id, ssh) v := by
  unfold user_can_see_event at h
  simp only [hssh, hmiss] at h
  split at h
  · simp at h
  · split at h
    · simp only [Prod.mk.injEq] at h
      obtain ⟨h1, _, h3⟩ := h
      cases h1
      exact h3.symm
    · simp at h
    · simp at h

end Conduwuit

namespace Conduwuit

/-- C5: for a fixed (principal, state-hash) pair, visibility decisions
are idempotent: a call that finds the pair cached answers from the cache
with an empty effect trace (no state-resolution collaborator call) and
an unchanged cache — a cached entry is never overwritten — and after any
successful call, repeating the call returns the identical boolean from
the cache, again with an empty trace and unchanged cache, so only the
first call performs full state resolution. -/
theorem claim_C5_visibility_cache_idempotent (env : StateEnv) :
    (∀ (cache : VisCache ServerName) origin room_id event_id v t c1,
      server_can_see_event env cache origin room_id event_id = (.ok v, t, c1) →
      server_can_see_event env c1 origin room_id event_id = (.ok v, [], c1)) ∧
    (∀ (cache : VisCache ServerName) origin room_id event_id ssh v,
      pdu_shortstatehash env event_id = .ok ssh →
      cacheGet cache (origin, ssh) = some v →
      server_can_see_event env cache origin room_id event_id = (.ok v, [], cache)) ∧
    (∀ (cache : VisCache UserId) user_id room_id event_id v t c1,
      user_can_see_event env cache user_id room_id event_id = (.ok v, t, c1) →
      user_can_see_event env c1 user_id room_id event_id = (.ok v, [], c1)) ∧
    (∀ (cache : VisCache UserId) user_id room_id event_id ssh v,
      pdu_shortstatehash env event_id = .ok ssh →
      cacheGet cache (user_id, ssh) = some v →
      user_can_see_event env cache user_id room_id event_id = (.ok v, [], cache)) := by
  refine ⟨?_, ?_, ?_, ?_⟩
  · intro cache origin room_id event_id v t c1 h
    cases hssh : pdu_shortstatehash env event_id with
    | error e =>
      have h0 : server_can_see_event env cache origin room_id event_id =
          (.ok true, [], cache) := by
        unfold server_can_see_event
        simp [hssh]
      rw [h0] at h
      simp only [Prod.mk.injEq] at h
      obtain ⟨h1, _, h3⟩ := h
      injection h1 with h1
      subst h1
      subst h3
      unfold server_can_see_event
      simp [hssh]
    | ok ssh =>
      cases hc : cacheGet cache (origin, ssh) with
      | some v0 =>
        rw [server_can_see_event_hit env cache origin room_id event_id ssh v0 hssh hc] at h
        simp only [Prod.mk.injEq] at h
        obtain ⟨h1, _, h3⟩ := h
        injection h1 with h1
        subst h1
        subst h3
        exact server_can_see_event_hit env cache origin room_id event_id ssh v0 hssh hc
      | none =>
        have hins := server_can_see_event_miss_inserts env cache origin room_id event_id
          ssh v t c1 hssh hc h
        subst hins
        exact server_can_see_event_hit env _ origin room_id event_id ssh v hssh
          (cacheGet_insert cache (origin, ssh) v)
  · intro cache origin room_id event_id ssh v hssh hhit
    exact server_can_see_event_hit env cache origin room_id event_id ssh v hssh hhit
  · intro cache user_id room_id event_id v t c1 h
    cases hssh : pdu_shortstatehash env event_id with
    | error e =>
      have h0 : user_can_see_event env cache user_id room_id event_id =
          (.ok true, [], cache) := by
        unfold user_can_see_event
        simp [hssh]
      rw [h0] at h
      simp only [Prod.mk.injEq] at h
      obtain ⟨h1, _, h3⟩ := h
      injection h1 with h1
      subst h1
      subst h3
      unfold user_can_see_event
      simp [hssh]
    | ok ssh =>
      cases hc : cacheGet cache (user_id, ssh) with
      | some v0 =>
        rw [user_can_see_event_hit env cache user_id room_id event_id ssh v0 hssh hc] at h
        simp only [Prod.mk.injEq] at h
        obtain ⟨h1, _, h3⟩ := h
        injection h1 with h1
        subst h1
        subst h3
        exact user_can_see_event_hit env cache user_id room_id event_id ssh v0 hssh hc
      | none =>
        have hins := user_can_see_event_miss_inserts env cache user_id room_id event_id
          ssh v t c1 hssh hc h
        subst hins
        exact user_can_see_event_hit env _ user_id room_id event_id ssh v hssh
          (cacheGet_insert cache (user_id, ssh) v)
  · intro cache user_id room_id event_id ssh v hssh hhit
    exact user_can_see_event_hit env cache user_id room_id event_id ssh v hssh hhit

/-- Witness for C5 in `stateEnvM`: the repeat of a computed server-side
decision is answered from the inserted cache entry with no further state
loads, and a user-side cached entry answers directly. -/
theorem claim_C5_visibility_cache_idempotent_witness :
    server_can_see_event stateEnvM [((("a.org" : ServerName), (7 : ShortStateHash)), false)]
        "a.org" "!r:s.org" "$ev" =
      (.ok false, [], [((("a.org" : ServerName), (7 : ShortStateHash)), false)]) ∧
    user_can_see_event stateEnvM [((uAlice, (7 : ShortStateHash)), true)]
        uAlice "!r:s.org" "$ev" =
      (.ok true, [], [((uAlice, (7 : ShortStateHash)), true)]) := by
  constructor
  · exact (claim_C5_visibility_cache_idempotent stateEnvM).1 []
      "a.org" "!r:s.org" "$ev" false [.loadState 7, .loadState 7]
      [((("a.org" : ServerName), (7 : ShortStateHash)), false)] rfl
  · exact (claim_C5_visibility_cache_idempotent stateEnvM).2.2.2
      [((uAlice, (7 : ShortStateHash)), true)] uAlice "!r:s.org" "$ev" 7 true rfl rfl

end Conduwuit

namespace Conduwuit

/-- C6: `user_can_see_event`, evaluated at the event's state-hash (cache
miss): an unresolvable state-hash default-allows; with missing
history-visibility defaulting to Shared: WorldReadable allows for every
user, Shared allows exactly when the user is currently joined,
Invited/Joined allow exactly when the user's historical membership at
that state-hash was at least invited / was joined, and an unrecognized
visibility value denies. -/
theorem claim_C6_user_visibility_semantics (env : StateEnv) (cache : VisCache UserId)
    (user_id : UserId) (room_id : RoomId) (event_id : EventId) :
    (∀ e, pdu_shortstatehash env event_id = .error e →
      user_can_see_event env cache user_id room_id event_id = (.ok true, [], cache)) ∧
    (∀ ssh, pdu_shortstatehash env event_id = .ok ssh →
      cacheGet cache (user_id, ssh) = none →
      ((∀ c t, state_get_content env ssh .roomHistoryVisibility "" env.deserHistVis =
            (.ok c, t) →
          c.history_visibility = .worldReadable →
          (user_can_see_event env cache user_id room_id event_id).1 = .ok true) ∧
       (∀ c t, state_get_content env ssh .roomHistoryVisibility "" env.deserHistVis =
            (.ok c, t) →
          c.history_visibility = .shared →
          (user_can_see_event env cache user_id room_id event_id).1 =
            .ok (env.is_joined user_id room_id)) ∧
       (∀ e t, state_get_content env ssh .roomHistoryVisibility "" env.deserHistVis =
            (.err e, t) →
          (user_can_see_event env cache user_id room_id event_id).1 =
            .ok (env.is_joined user_id room_id)) ∧
       (∀ c t m tm, state_get_content env ssh .roomHistoryVisibility "" env.deserHistVis =
            (.ok c, t) →
          c.history_visibility = .invited →
          user_membership env ssh user_id = (.ok m, tm) →
          (user_can_see_event env cache user_id room_id event_id).1 =
            .ok (m == .join || m == .invite)) ∧
       (∀ c t m tm, state_get_content env ssh .roomHistoryVisibility "" env.deserHistVis =
            (.ok c, t) →
          c.history_visibility = .joined →
          user_membership env ssh user_id = (.ok m, tm) →
          (user_can_see_event env cache user_id room_id event_id).1 =
            .ok (m == .join)) ∧
       (∀ c t s, state_get_content env ssh .roomHistoryVisibility "" env.deserHistVis =
            (.ok c, t) →
          c.history_visibility = .custom s →
          (user_can_see_event env cache user_id room_id event_id).1 = .ok false))) := by
  constructor
  · intro e hssh
    unfold user_can_see_event
    simp [hssh]
  · intro ssh hssh hc
    refine ⟨?_, ?_, ?_, ?_, ?_, ?_⟩
    · intro c t hhv hv
      unfold user_can_see_event
      simp [hssh, hc, hhv, hv]
    · intro c t hhv hv
      unfold user_can_see_event
      simp [hssh, hc, hhv, hv]
    · intro e t hhv
      unfold user_can_see_event
      simp [hssh, hc, hhv]
    · intro c t m tm hhv hv hm
      have huwi : user_was_invited env ssh user_id = (.ok (m == .join || m == .invite), tm) := by
        unfold user_was_invited
        rw [hm]
      unfold user_can_see_event
      simp [hssh, hc, hhv, hv, huwi]
    · intro c t m tm hhv hv hm
      have huwj : user_was_joined env ssh user_id = (.ok (m == .join), tm) := by
        unfold user_was_joined
        rw [hm]
      unfold user_can_see_event
      simp [hssh, hc, hhv, hv, huwj]
    · intro c t s hhv hv
      unfold user_can_see_event
      simp [hssh, hc, hhv, hv]

/-- A variant of `stateEnvM` whose short-event-id lookup fails, making
every state-hash unresolvable. -/
def stateEnvU : StateEnv :=
  { stateEnvM with get_shorteventid := fun _ => .error (.notFound "no shorteventid") }

/-- Witness for C6: unresolvable state-hash default-allows; in
`stateEnvM` (Invited visibility, member event absent) the Invited branch
denies. -/
theorem claim_C6_user_visibility_semantics_witness :
    user_can_see_event stateEnvU [] uAlice "!r:s.org" "$ev" = (.ok true, [], []) ∧
    (user_can_see_event stateEnvM [] uBob "!r:s.org" "$ev").1 = .ok false := by
  constructor
  · exact (claim_C6_user_visibility_semantics stateEnvU [] uAlice "!r:s.org" "$ev").1
      (.notFound "no shorteventid") rfl
  · exact ((claim_C6_user_visibility_semantics stateEnvM [] uBob "!r:s.org" "$ev").2
      7 rfl rfl).2.2.2.1 ⟨.invited⟩ [.loadState 7] .leave [.loadState 7] rfl rfl rfl

end Conduwuit

namespace Conduwuit

/-- C3: `user_can_redact` hard-denies redacting `m.room.create` and
`m.room.server_acl` regardless of the sender's power level; with a
power-levels event present it allows exactly when the sender may redact
others' events, or may redact own events and (under federation) the
redacted event's sender is on the sender's server, or (otherwise) is
identically the sender — with a missing redacted event the own-event arm
contributes nothing; without power levels it falls back to
`m.room.create`, allowing the room creator or the original event's
sender; and with neither event it returns a bad-database error, a
constructor distinct from the Forbidden denial. -/
theorem claim_C3_redaction_authorization (env : StateEnv) (redacts : EventId)
    (sender : UserId) (room_id : RoomId) (federation : Bool) :
    (∀ pdu, env.get_pdu redacts = .ok pdu → pdu.kind = .roomCreate →
      user_can_redact env redacts sender room_id federation =
        (.err (.forbidden "Redacting m.room.create is not safe, forbidding"), [])) ∧
    (∀ pdu, env.get_pdu redacts = .ok pdu → pdu.kind = .roomServerAcl →
      user_can_redact env redacts sender room_id federation =
        (.err (.forbidden "Redacting m.room.server_acl will result in the room being inaccessible for everyone, forbidding"), [])) ∧
    (∀ pl t re, exceptKindIs (env.get_pdu redacts) .roomCreate = false →
      exceptKindIs (env.get_pdu redacts) .roomServerAcl = false →
      room_state_get_content env room_id .roomPowerLevels "" env.deserPL = (.ok pl, t) →
      env.get_pdu redacts = .ok re →
      user_can_redact env redacts sender room_id federation =
        (.ok (pl.canRedactOther sender ||
          (pl.canRedactOwn sender &&
            (if federation then re.sender.server == sender.server
             else re.sender == sender))), t)) ∧
    (∀ pl t e, exceptKindIs (env.get_pdu redacts) .roomCreate = false →
      exceptKindIs (env.get_pdu redacts) .roomServerAcl = false →
      room_state_get_content env room_id .roomPowerLevels "" env.deserPL = (.ok pl, t) →
      env.get_pdu redacts = .error e →
      user_can_redact env redacts sender room_id federation =
        (.ok (pl.canRedactOther sender), t)) ∧
    (∀ e t room_create t2 re, exceptKindIs (env.get_pdu redacts) .roomCreate = false →
      exceptKindIs (env.get_pdu redacts) .roomServerAcl = false →
      room_state_get_content env room_id .roomPowerLevels "" env.deserPL = (.err e, t) →
      room_state_get env room_id .roomCreate "" = (.ok room_create, t2) →
      env.get_pdu redacts = .ok re →
      user_can_redact env redacts sender room_id federation =
        (.ok (room_create.sender == sender || re.sender == sender), t ++ t2)) ∧
    (∀ e t room_create t2 e2, exceptKindIs (env.get_pdu redacts) .roomCreate = false →
      exceptKindIs (env.get_pdu redacts) .roomServerAcl = false →
      room_state_get_content env room_id .roomPowerLevels "" env.deserPL = (.err e, t) →
      room_state_get env room_id .roomCreate "" = (.ok room_create, t2) →
      env.get_pdu redacts = .error e2 →
      user_can_redact env redacts sender room_id federation =
        (.ok (room_create.sender == sender), t ++ t2)) ∧
    (∀ e t e2 t2, exceptKindIs (env.get_pdu redacts) .roomCreate = false →
      exceptKindIs (env.get_pdu redacts) .roomServerAcl = false →
      room_state_get_content env room_id .roomPowerLevels "" env.deserPL = (.err e, t) →
      room_state_get env room_id .roomCreate "" = (.err e2, t2) →
      user_can_redact env redacts sender room_id federation =
        (.err (.badDatabase "No m.room.power_levels or m.room.create events in database for room"), t ++ t2)) := by
  refine ⟨?_, ?_, ?_, ?_, ?_, ?_, ?_⟩
  · intro pdu hpdu hkind
    have hk : exceptKindIs (env.get_pdu redacts) .roomCreate = true := by
      simp [exceptKindIs, hpdu, hkind]
    unfold user_can_redact
    simp [hk]
  · intro pdu hpdu hkind
    have hk1 : exceptKindIs (env.get_pdu redacts) .roomCreate = false := by
      simp [exceptKindIs, hpdu, hkind]
    have hk2 : exceptKindIs (env.get_pdu redacts) .roomServerAcl = true := by
      simp [exceptKindIs, hpdu, hkind]
    unfold user_can_redact
    simp [hk1, hk2]
  · intro pl t re hk1 hk2 hpl hre
    unfold user_can_redact
    simp only [hk1, hk2, Bool.false_eq_true, if_false]
    simp [hpl, hre]
  · intro pl t e hk1 hk2 hpl hre
    unfold user_can_redact
    simp only [hk1, hk2, Bool.false_eq_true, if_false]
    simp [hpl, hre]
  · intro e t room_create t2 re hk1 hk2 hpl hcreate hre
    unfold user_can_redact
    simp only [hk1, hk2, Bool.false_eq_true, if_false]
    simp [hpl, hcreate, hre]
  · intro e t room_create t2 e2 hk1 hk2 hpl hcreate hre
    unfold user_can_redact
    simp only [hk1, hk2, Bool.false_eq_true, if_false]
    simp [hpl, hcreate, hre]
  · intro e t e2 t2 hk1 hk2 hpl hcreate
    unfold user_can_redact
    simp only [hk1, hk2, Bool.false_eq_true, if_false]
    simp [hpl, hcreate]

/-- Timeline lookup holding a create and a server-ACL event. -/
def getPduR (event_id : EventId) : Except Error PduEvent :=
  if event_id = "$create" then .ok ⟨.roomCreate, uAlice, some "", "c"⟩
  else if event_id = "$acl" then .ok ⟨.roomServerAcl, uAlice, some "", "a"⟩
  else .error (.notFound "event not found")

/-- Like `stateEnvM` but with a create and a server-ACL event in the
timeline. -/
def stateEnvR : StateEnv :=
  { stateEnvM with get_pdu := getPduR }

/-- Witness for C3: hard denials on create and server-ACL targets, and
the bad-database error when neither power-levels nor create state
resolves. -/
theorem claim_C3_redaction_authorization_witness :
    user_can_redact stateEnvR "$create" uBob "!r:s.org" false =
      (.err (.forbidden "Redacting m.room.create is not safe, forbidding"), []) ∧
    user_can_redact stateEnvR "$acl" uBob "!r:s.org" true =
      (.err (.forbidden "Redacting m.room.server_acl will result in the room being inaccessible for everyone, forbidding"), []) ∧
    user_can_redact stateEnvR "$other" uBob "!r:s.org" false =
      (.err (.badDatabase "No m.room.power_levels or m.room.create events in database for room"),
       [.loadState 7, .loadState 7]) := by
  refine ⟨?_, ?_, ?_⟩
  · exact (claim_C3_redaction_authorization stateEnvR "$create" uBob "!r:s.org" false).1
      ⟨.roomCreate, uAlice, some "", "c"⟩ rfl rfl
  · exact (claim_C3_redaction_authorization stateEnvR "$acl" uBob "!r:s.org" true).2.1
      ⟨.roomServerAcl, uAlice, some "", "a"⟩ rfl rfl
  · exact (claim_C3_redaction_authorization stateEnvR "$other" uBob
      "!r:s.org" false).2.2.2.2.2.2
      (.database "No shortstatekey in compressed state") [.loadState 7]
      (.database "No shortstatekey in compressed state") [.loadState 7]
      rfl rfl rfl rfl

end Conduwuit
